import Mathlib

/-!
Shallow embedding of `src/backend/import_to_market_data.py` (the market-data
ingestion pipeline of mytechsonamy/mytrader) and proofs about it.

Modelling conventions:
* A CSV cell is `Cell`: a string, a (rational) number, or NaN/missing (`Cell.na`).
  pandas parses numeric columns to floats; we use `ℚ` for all numeric values.
* A `RawFile` is a header (list of column names) and positional rows, exactly
  as `pd.read_csv` sees a file.  Association of names to cells goes through
  zipping the (BOM-stripped, renamed) header with each row, mirroring how
  renaming `df.columns` re-labels every row at once.
* `float(...)` conversion in the Python row loop is `toFloat`: it succeeds on a
  numeric cell and fails (raises, hence the row is rolled back) otherwise.
* `pd.to_datetime` is an external library function; it is passed in as a
  parameter `parseDate : Cell → Option ℕ` (a parsed date is an abstract ℕ).
  Its failure on any surviving row's Date cell is a whole-file failure.
* Per-row database faults other than the expected natural-key conflict
  (connectivity loss, etc.) are modelled by an oracle `oracle : ℕ → Bool`
  telling whether the attempt at a given loop index raises; a raised attempt
  is rolled back (store unchanged) and the loop continues, exactly like the
  `except: conn.rollback(); continue` in the source.
* The store is a list of committed rows; `INSERT ... ON CONFLICT ("Symbol",
  "Timeframe", "Timestamp") DO NOTHING` is `insertOnConflictDoNothing`.
* `uuid.uuid4()` is modelled by a fresh-id counter threaded through the run
  (ids are only required to be fresh, never compared by the pipeline).
* Python's catch-all `try/except` around the whole file is modelled by a
  `readError` flag for failures at/before `pd.read_csv` plus the explicit
  `return 0` paths; the embedding is a total function, mirroring the fact
  that `process_csv_file` never propagates an exception.
-/

namespace MyTrader

/-- A CSV cell as pandas materialises it: a string, a number, or NaN. -/
inductive Cell where
  | str (s : String)
  | num (q : ℚ)
  | na
deriving DecidableEq

/-- A labelled row: column name to cell, in column order. -/
abbrev Row := List (String × Cell)

/-- Python `row[c]`: the first column labelled `c` (NaN when absent). -/
def Row.getCell (r : Row) (c : String) : Cell :=
  match r.find? (fun p => p.1 == c) with
  | some p => p.2
  | none => Cell.na

/-- A source CSV file: header names plus positional rows. -/
structure RawFile where
  header : List String
  rows : List (List Cell)
deriving DecidableEq

/-- Line 29-30: strip a byte-order mark from the first header name. -/
def stripBOM (header : List String) : List String :=
  match header with
  | [] => []
  | c :: rest =>
      if c.startsWith "\uFEFF" then (c.replace "\uFEFF" "") :: rest else c :: rest

/-- Lines 33-55: the column renaming applied to a header name `src`, given the
whole (BOM-stripped) header.  Variant A (`HisseKodu`) is checked first and
picks `DuzeltilmisKapanis` as the close source when present, else
`KapanisFiyati`; Variant B (`HGDG_HS_KODU`) always maps `DuzeltilmisKapanis`
to `Close`; otherwise nothing is renamed. -/
def renameFn (header : List String) (src : String) : String :=
  if "HisseKodu" ∈ header then
    let close_col := if "DuzeltilmisKapanis" ∈ header then "DuzeltilmisKapanis"
                     else "KapanisFiyati"
    if src = "HisseKodu" then "Symbol"
    else if src = "Tarih" then "Date"
    else if src = "AcilisFiyati" then "Open"
    else if src = "EnYuksek" then "High"
    else if src = "EnDusuk" then "Low"
    else if src = close_col then "Close"
    else if src = "Hacim" then "Volume"
    else src
  else if "HGDG_HS_KODU" ∈ header then
    if src = "HGDG_HS_KODU" then "Symbol"
    else if src = "Tarih" then "Date"
    else if src = "AcilisFiyati" then "Open"
    else if src = "EnYuksek" then "High"
    else if src = "EnDusuk" then "Low"
    else if src = "DuzeltilmisKapanis" then "Close"
    else if src = "Hacim" then "Volume"
    else src
  else src

/-- The header of a file after BOM stripping and variant renaming. -/
def headerNorm (f : RawFile) : List String :=
  (stripBOM f.header).map (renameFn (stripBOM f.header))

/-- Line 58: the canonical required columns. -/
def requiredCols : List String :=
  ["Symbol", "Date", "Open", "High", "Low", "Close", "Volume"]

/-- Line 59: `all(col in df.columns for col in required_cols)`. -/
def headerOk (f : RawFile) : Bool :=
  requiredCols.all (fun c => (headerNorm f).contains c)

/-- The rows of a file re-labelled with the normalised header. -/
def normRows (f : RawFile) : List Row :=
  f.rows.map (fun cs => (headerNorm f).zip cs)

/-- Line 63 `dropna()`: a row survives iff no required field is NaN/missing. -/
def survives (r : Row) : Bool :=
  requiredCols.all (fun c => r.getCell c != Cell.na)

/-- The rows that survive `df[required_cols].dropna()`. -/
def survivorRows (f : RawFile) : List Row :=
  (normRows f).filter survives

/-- Lines 66-70 `pd.to_datetime(df['Date'])`: parse each surviving row's Date
cell; any failure fails the whole file. -/
def parseDates (parseDate : Cell → Option ℕ) (rs : List Row) :
    Option (List (Row × ℕ)) :=
  rs.mapM (fun r => (parseDate (r.getCell "Date")).map (fun d => (r, d)))

/-- Line 86 `float(...)`: succeeds only on a numeric cell. -/
def toFloat : Cell → Option ℚ
  | Cell.num q => some q
  | _ => none

/-- Line 76 `market_name.upper()`: upper-case every character. -/
def strUpper (s : String) : String :=
  ⟨s.data.map Char.toUpper⟩

/-- Lines 87-88: scale a volume that overflows `numeric(18,8)` down to
millions. -/
def scaleVolume (v : ℚ) : ℚ :=
  if 99999999 < v then v / 1000000 else v

/-- One row of the `market_data` table. -/
structure StoredRow where
  Id : ℕ
  Symbol : Cell
  Timeframe : String
  Timestamp : ℕ
  Open : ℚ
  High : ℚ
  Low : ℚ
  Close : ℚ
  Volume : ℚ
  AssetClass : String
deriving DecidableEq

/-- The `market_data` table: the list of committed rows. -/
abbrev Store := List StoredRow

/-- Does the store already hold a row with this natural key
`(Symbol, Timeframe, Timestamp)`? -/
def rowKeyIn (store : Store) (sym : Cell) (tf : String) (ts : ℕ) : Bool :=
  store.any (fun x => x.Symbol == sym && x.Timeframe == tf && x.Timestamp == ts)

/-- Lines 90-98: `INSERT ... ON CONFLICT ("Symbol","Timeframe","Timestamp")
DO NOTHING` — append unless the natural key is already present. -/
def insertOnConflictDoNothing (store : Store) (r : StoredRow) : Store :=
  if rowKeyIn store r.Symbol r.Timeframe r.Timestamp then store
  else store ++ [r]

/-- Lines 84-98: build the tuple bound into the INSERT from one surviving row:
all price fields and the volume must convert via `float`, the volume is
overflow-scaled, `Timeframe` is the DAILY constant, `Timestamp` the parsed
date, `AssetClass` the upper-cased market name.  `none` models a raised
conversion error (the row's transaction is rolled back). -/
def mkStoredRow (market : String) (id : ℕ) (r : Row) (d : ℕ) :
    Option StoredRow :=
  match toFloat (r.getCell "Volume"), toFloat (r.getCell "Open"),
        toFloat (r.getCell "High"), toFloat (r.getCell "Low"),
        toFloat (r.getCell "Close") with
  | some v, some o, some hi, some lo, some c =>
      some { Id := id, Symbol := r.getCell "Symbol", Timeframe := "DAILY",
             Timestamp := d, Open := o, High := hi, Low := lo, Close := c,
             Volume := scaleVolume v, AssetClass := strUpper market }
  | _, _, _, _, _ => none

/-- Lines 82-104: the per-row insert loop.  `idx` is the loop index consulted
by the fault oracle, `nextId` the fresh-id counter, `count` the running
`insert_count`.  A faulted or unconvertible row is rolled back and skipped;
otherwise the row is inserted (a natural-key conflict is a silent no-op) and
— exactly as in the source — `insert_count` is incremented, conflict or not. -/
def insertLoop (oracle : ℕ → Bool) (market : String) :
    List (Row × ℕ) → ℕ → ℕ → Store → ℕ → ℕ × ℕ × Store
  | [], _, nextId, store, count => (count, nextId, store)
  | (r, d) :: rest, idx, nextId, store, count =>
      if oracle idx then
        insertLoop oracle market rest (idx + 1) (nextId + 1) store count
      else
        match mkStoredRow market nextId r d with
        | none =>
            insertLoop oracle market rest (idx + 1) (nextId + 1) store count
        | some sr =>
            insertLoop oracle market rest (idx + 1) (nextId + 1)
              (insertOnConflictDoNothing store sr) (count + 1)

/-- Lines 20-114, `process_csv_file`: returns the reported insert count, the
advanced fresh-id counter and the updated store.  `readError` models a raised
exception at/before `pd.read_csv` (caught by the outer `except`, which makes
the function return 0). -/
def processCsvFile (parseDate : Cell → Option ℕ) (oracle : ℕ → Bool)
    (readError : Bool) (f : RawFile) (market : String) (nextId : ℕ)
    (store : Store) : ℕ × ℕ × Store :=
  if readError then (0, nextId, store)
  else if headerOk f then
    match parseDates parseDate (survivorRows f) with
    | none => (0, nextId, store)
    | some dated => insertLoop oracle market dated 0 nextId store 0
  else (0, nextId, store)

/-- The rows actually attempted by the insert loop of `process_csv_file`
(empty when the file is skipped for a header or date-parse failure). -/
def attemptedRows (parseDate : Cell → Option ℕ) (f : RawFile) :
    List (Row × ℕ) :=
  if headerOk f then (parseDates parseDate (survivorRows f)).getD [] else []

/-- The fault-free oracle: no row-level database failure ever occurs. -/
def noFail : ℕ → Bool := fun _ => false

/-- All five `float(...)` conversions of a row succeed (the row, if attempted
and not faulted, reaches the INSERT). -/
def rowOk (r : Row) : Bool :=
  (toFloat (r.getCell "Volume")).isSome && (toFloat (r.getCell "Open")).isSome
    && (toFloat (r.getCell "High")).isSome
    && (toFloat (r.getCell "Low")).isSome
    && (toFloat (r.getCell "Close")).isSome

/-- Rows whose INSERT executes and commits without raising, i.e. exactly the
attempts on which the source increments `insert_count` (natural-key-conflict
no-ops included). -/
def countExec (oracle : ℕ → Bool) : ℕ → List (Row × ℕ) → ℕ
  | _, [] => 0
  | idx, (r, _) :: rest =>
      (if oracle idx = false ∧ rowOk r = true then 1 else 0)
        + countExec oracle (idx + 1) rest

/-- A sequence of `process_csv_file` calls (file, market) sharing one store and
one fresh-id counter; the fault oracle is indexed per file then per row. -/
def runFiles (parseDate : Cell → Option ℕ) (oracle : ℕ → ℕ → Bool)
    (readErr : ℕ → Bool) :
    List (RawFile × String) → ℕ → ℕ → Store → ℕ × Store
  | [], _, nextId, store => (nextId, store)
  | (f, m) :: rest, fidx, nextId, store =>
      let res := processCsvFile parseDate (oracle fidx) (readErr fidx) f m
        nextId store
      runFiles parseDate oracle readErr rest (fidx + 1) res.2.1 res.2.2

/-- Line 121: the market list walked by `main`. -/
def marketsList : List String := ["Crypto", "BIST", "NASDAQ", "NYSE"]

/-- Lines 137-140: the per-market file loop of `main`, accumulating
`total_files` (`tf`) and `total_records` (`tr`).  Returns
`(total_files, total_records, file index, fresh-id counter, store)`. -/
def processMarketFiles (parseDate : Cell → Option ℕ) (oracle : ℕ → ℕ → Bool)
    (readErr : ℕ → Bool) (market : String) :
    List RawFile → ℕ → ℕ → Store → ℕ → ℕ → ℕ × ℕ × ℕ × ℕ × Store
  | [], fidx, nextId, store, tf, tr => (tf, tr, fidx, nextId, store)
  | f :: rest, fidx, nextId, store, tf, tr =>
      let res := processCsvFile parseDate (oracle fidx) (readErr fidx) f market
        nextId store
      processMarketFiles parseDate oracle readErr market rest (fidx + 1)
        res.2.1 res.2.2 (tf + 1) (tr + res.1)

/-- Lines 126-144: one iteration of `main`'s market loop.  A missing market
directory (`fs market = none`) is skipped with a warning; only `BIST` is
processed, and only its first three CSV files (`csv_files[:3]`); every other
existing market is skipped as "already processed". -/
def mainStep (parseDate : Cell → Option ℕ) (oracle : ℕ → ℕ → Bool)
    (readErr : ℕ → Bool) (fs : String → Option (List RawFile))
    (acc : ℕ × ℕ × ℕ × ℕ × Store) (market : String) : ℕ × ℕ × ℕ × ℕ × Store :=
  match fs market with
  | none => acc
  | some files =>
      if market = "BIST" then
        processMarketFiles parseDate oracle readErr market (files.take 3)
          acc.2.2.1 acc.2.2.2.1 acc.2.2.2.2 acc.1 acc.2.1
      else acc

/-- Lines 116-148, `main`: walk the market list over a directory tree
`fs : market name → Option (list of CSV files)`, starting from a fresh-id
counter and a store.  Returns `(total_files, total_records, file index,
fresh-id counter, store)`. -/
def mainRun (parseDate : Cell → Option ℕ) (oracle : ℕ → ℕ → Bool)
    (readErr : ℕ → Bool) (fs : String → Option (List RawFile)) (nextId : ℕ)
    (store : Store) : ℕ × ℕ × ℕ × ℕ × Store :=
  marketsList.foldl (mainStep parseDate oracle readErr fs) (0, 0, 0, nextId, store)

/-- A concrete date parser for witnesses: a date cell is a numeric yyyymmdd. -/
def natParse : Cell → Option ℕ
  | Cell.num q => if q.den = 1 ∧ 0 ≤ q.num then some q.num.toNat else none
  | _ => none

/-- Scenario-A fixture: a Variant-A file of four rows whose third row is
missing `Close` (`KapanisFiyati` is NaN) and whose second row has the
overflowing volume 500,000,000. -/
def fileA : RawFile :=
  { header := ["HisseKodu", "Tarih", "AcilisFiyati", "EnYuksek", "EnDusuk",
               "KapanisFiyati", "Hacim"],
    rows := [[Cell.str "ASELS", Cell.num 20240102, Cell.num 10, Cell.num 12,
              Cell.num 9, Cell.num 11, Cell.num 1000],
             [Cell.str "ASELS", Cell.num 20240103, Cell.num 11, Cell.num 13,
              Cell.num 10, Cell.num 12, Cell.num 500000000],
             [Cell.str "ASELS", Cell.num 20240104, Cell.num 11, Cell.num 13,
              Cell.num 10, Cell.na, Cell.num 900],
             [Cell.str "ASELS", Cell.num 20240105, Cell.num 11, Cell.num 13,
              Cell.num 10, Cell.num 12, Cell.num 800]] }

/-- Reimport fixture: a one-row Variant-A file. -/
def fileOne : RawFile :=
  { header := ["HisseKodu", "Tarih", "AcilisFiyati", "EnYuksek", "EnDusuk",
               "KapanisFiyati", "Hacim"],
    rows := [[Cell.str "GARAN", Cell.num 20240102, Cell.num 10, Cell.num 12,
              Cell.num 9, Cell.num 11, Cell.num 1000]] }

/-- C5 counterexample fixture: the header carries BOTH symbol columns
(`HisseKodu` and `HGDG_HS_KODU`) and only the RAW close column
(`KapanisFiyati`, value 11); there is no adjusted-close column. -/
def fileAB : RawFile :=
  { header := ["HisseKodu", "HGDG_HS_KODU", "Tarih", "AcilisFiyati",
               "EnYuksek", "EnDusuk", "KapanisFiyati", "Hacim"],
    rows := [[Cell.str "XU100", Cell.str "XU100B", Cell.num 20240102,
              Cell.num 10, Cell.num 12, Cell.num 9, Cell.num 11,
              Cell.num 1000]] }

/-- Variant-B fixture: `HGDG_HS_KODU` symbol column, both a raw close
(`KapanisFiyati` = 7) and an adjusted close (`DuzeltilmisKapanis` = 8). -/
def fileB : RawFile :=
  { header := ["HGDG_HS_KODU", "Tarih", "AcilisFiyati", "EnYuksek", "EnDusuk",
               "KapanisFiyati", "DuzeltilmisKapanis", "Hacim"],
    rows := [[Cell.str "XU030", Cell.num 20240102, Cell.num 5, Cell.num 9,
              Cell.num 4, Cell.num 7, Cell.num 8, Cell.num 2000]] }

/-- Variant-A fixture with both close columns present
(`KapanisFiyati` = 7, `DuzeltilmisKapanis` = 8). -/
def fileAdj : RawFile :=
  { header := ["HisseKodu", "Tarih", "AcilisFiyati", "EnYuksek", "EnDusuk",
               "KapanisFiyati", "DuzeltilmisKapanis", "Hacim"],
    rows := [[Cell.str "THYAO", Cell.num 20240102, Cell.num 5, Cell.num 9,
              Cell.num 4, Cell.num 7, Cell.num 8, Cell.num 2000]] }

/-- Unrecognized-schema fixture: a header matching neither variant. -/
def fileUnknown : RawFile :=
  { header := ["ticker", "date", "o", "h", "l", "c", "v"],
    rows := [[Cell.str "AAPL", Cell.num 20240102, Cell.num 1, Cell.num 2,
              Cell.num 3, Cell.num 4, Cell.num 5]] }

/-- Shadow fixture: a Variant-A header with a literal `Close` column (value
42) and neither `DuzeltilmisKapanis` nor `KapanisFiyati`. -/
def fileShadow : RawFile :=
  { header := ["HisseKodu", "Tarih", "AcilisFiyati", "EnYuksek", "EnDusuk",
               "Close", "Hacim"],
    rows := [[Cell.str "SHDW", Cell.num 20240102, Cell.num 1, Cell.num 2,
              Cell.num 3, Cell.num 42, Cell.num 100]] }

/-- Bad-date fixture: a Variant-A file whose Date column does not parse. -/
def fileBadDate : RawFile :=
  { header := ["HisseKodu", "Tarih", "AcilisFiyati", "EnYuksek", "EnDusuk",
               "KapanisFiyati", "Hacim"],
    rows := [[Cell.str "EREGL", Cell.str "not a date", Cell.num 10,
              Cell.num 12, Cell.num 9, Cell.num 11, Cell.num 1000]] }

/-- No two rows of the store share the natural key
`(Symbol, Timeframe, Timestamp)`. -/
def keyUnique (s : Store) : Prop :=
  s.Pairwise (fun a b =>
    ¬(a.Symbol = b.Symbol ∧ a.Timeframe = b.Timeframe ∧
      a.Timestamp = b.Timestamp))

/-! Basic lemmas about the row and store primitives -/

theorem getCell_cons_pos {a c : String} (h : a = c) (b : Cell) (r : Row) :
    Row.getCell ((a, b) :: r) c = b := by
  simp [Row.getCell, List.find?_cons_of_pos, h]

theorem getCell_cons_neg {a c : String} (h : ¬a = c) (b : Cell) (r : Row) :
    Row.getCell ((a, b) :: r) c = Row.getCell r c := by
  have : ((a, b).1 == c) = false := by simpa using h
  simp [Row.getCell, List.find?_cons_of_neg, this]

theorem mkStoredRow_eq_some {m : String} {id : ℕ} {r : Row} {d : ℕ}
    {sr : StoredRow} (h : mkStoredRow m id r d = some sr) :
    sr.Id = id ∧ sr.Symbol = r.getCell "Symbol" ∧ sr.Timeframe = "DAILY" ∧
      sr.Timestamp = d ∧ toFloat (r.getCell "Close") = some sr.Close ∧
      ∃ v, toFloat (r.getCell "Volume") = some v ∧ sr.Volume = scaleVolume v := by
  rcases hv : toFloat (r.getCell "Volume") with _ | v <;>
    rcases ho : toFloat (r.getCell "Open") with _ | o <;>
      rcases hh : toFloat (r.getCell "High") with _ | hi <;>
        rcases hl : toFloat (r.getCell "Low") with _ | lo <;>
          rcases hc : toFloat (r.getCell "Close") with _ | c <;>
            simp only [mkStoredRow, hv, ho, hh, hl, hc,
              Option.some.injEq] at h <;>
              first
                | exact Option.noConfusion h
                | (subst h; exact ⟨rfl, rfl, rfl, rfl, rfl, v, rfl, rfl⟩)

theorem mkStoredRow_isSome (m : String) (id : ℕ) (r : Row) (d : ℕ) :
    (mkStoredRow m id r d).isSome = rowOk r := by
  rcases hv : toFloat (r.getCell "Volume") with _ | v <;>
    rcases ho : toFloat (r.getCell "Open") with _ | o <;>
      rcases hh : toFloat (r.getCell "High") with _ | hi <;>
        rcases hl : toFloat (r.getCell "Low") with _ | lo <;>
          rcases hc : toFloat (r.getCell "Close") with _ | c <;>
            simp [mkStoredRow, rowOk, hv, ho, hh, hl, hc]

theorem rowOk_exists_mk {r : Row} (h : rowOk r = true) (m : String) (id d : ℕ) :
    ∃ sr, mkStoredRow m id r d = some sr := by
  have hs := mkStoredRow_isSome m id r d
  rw [h] at hs
  exact Option.isSome_iff_exists.mp hs

theorem insert_noop {s : Store} {r : StoredRow}
    (h : rowKeyIn s r.Symbol r.Timeframe r.Timestamp = true) :
    insertOnConflictDoNothing s r = s := by
  simp [insertOnConflictDoNothing, h]

theorem insert_self_key (s : Store) (r : StoredRow) :
    rowKeyIn (insertOnConflictDoNothing s r) r.Symbol r.Timeframe
      r.Timestamp = true := by
  unfold insertOnConflictDoNothing
  split
  · next h => exact h
  · simp [rowKeyIn, List.any_append]

theorem insert_mono_key {s : Store} {sym : Cell} {tf : String} {ts : ℕ}
    (h : rowKeyIn s sym tf ts = true) (r : StoredRow) :
    rowKeyIn (insertOnConflictDoNothing s r) sym tf ts = true := by
  unfold insertOnConflictDoNothing
  split
  · exact h
  · unfold rowKeyIn at h ⊢
    simp [List.any_append, h]

theorem mem_insert {x : StoredRow} {s : Store} {r : StoredRow}
    (h : x ∈ insertOnConflictDoNothing s r) : x ∈ s ∨ x = r := by
  unfold insertOnConflictDoNothing at h
  split at h
  · exact Or.inl h
  · rcases List.mem_append.mp h with h' | h'
    · exact Or.inl h'
    · exact Or.inr (List.mem_singleton.mp h')

theorem insert_cases (s : Store) (r : StoredRow) :
    insertOnConflictDoNothing s r = s ∨
      (rowKeyIn s r.Symbol r.Timeframe r.Timestamp = false ∧
        insertOnConflictDoNothing s r = s ++ [r]) := by
  unfold insertOnConflictDoNothing
  split
  · exact Or.inl rfl
  · next h => exact Or.inr ⟨by simpa using h, rfl⟩

/-! Unfolding lemmas for the per-row insert loop -/

theorem insertLoop_nil (oracle : ℕ → Bool) (m : String) (idx nId c : ℕ)
    (st : Store) : insertLoop oracle m [] idx nId st c = (c, nId, st) := rfl

theorem insertLoop_cons_fault {oracle : ℕ → Bool} {idx : ℕ}
    (h : oracle idx = true) (m : String) (r : Row) (d : ℕ)
    (rest : List (Row × ℕ)) (nId c : ℕ) (st : Store) :
    insertLoop oracle m ((r, d) :: rest) idx nId st c =
      insertLoop oracle m rest (idx + 1) (nId + 1) st c := by
  simp [insertLoop, h]

theorem insertLoop_cons_bad {oracle : ℕ → Bool} {idx : ℕ}
    (h : oracle idx = false) {m : String} {nId : ℕ} {r : Row} {d : ℕ}
    (hmk : mkStoredRow m nId r d = none) (rest : List (Row × ℕ)) (c : ℕ)
    (st : Store) :
    insertLoop oracle m ((r, d) :: rest) idx nId st c =
      insertLoop oracle m rest (idx + 1) (nId + 1) st c := by
  simp [insertLoop, h, hmk]

theorem insertLoop_cons_ok {oracle : ℕ → Bool} {idx : ℕ}
    (h : oracle idx = false) {m : String} {nId : ℕ} {r : Row} {d : ℕ}
    {sr : StoredRow} (hmk : mkStoredRow m nId r d = some sr)
    (rest : List (Row × ℕ)) (c : ℕ) (st : Store) :
    insertLoop oracle m ((r, d) :: rest) idx nId st c =
      insertLoop oracle m rest (idx + 1) (nId + 1)
        (insertOnConflictDoNothing st sr) (c + 1) := by
  simp [insertLoop, h, hmk]

/-! Invariants of the insert loop -/

theorem insertLoop_mono_key {oracle : ℕ → Bool} {m : String} {sym : Cell}
    {tf : String} {ts : ℕ} (rows : List (Row × ℕ)) :
    ∀ (idx nId c : ℕ) (st : Store), rowKeyIn st sym tf ts = true →
      rowKeyIn (insertLoop oracle m rows idx nId st c).2.2 sym tf ts = true := by
  induction rows with
  | nil => intro idx nId c st h; simpa [insertLoop_nil] using h
  | cons rd rest ih =>
    intro idx nId c st h
    obtain ⟨r, d⟩ := rd
    cases horc : oracle idx with
    | true => rw [insertLoop_cons_fault horc]; exact ih _ _ _ _ h
    | false =>
      cases hmk : mkStoredRow m nId r d with
      | none => rw [insertLoop_cons_bad horc hmk]; exact ih _ _ _ _ h
      | some sr =>
        rw [insertLoop_cons_ok horc hmk]
        exact ih _ _ _ _ (insert_mono_key h sr)

theorem insertLoop_mem {oracle : ℕ → Bool} {m : String}
    (rows : List (Row × ℕ)) :
    ∀ (idx nId c : ℕ) (st : Store) (x : StoredRow),
      x ∈ (insertLoop oracle m rows idx nId st c).2.2 →
      x ∈ st ∨ ∃ rd ∈ rows, ∃ id, mkStoredRow m id rd.1 rd.2 = some x := by
  induction rows with
  | nil => intro idx nId c st x hx; exact Or.inl (by simpa [insertLoop_nil] using hx)
  | cons rd rest ih =>
    intro idx nId c st x hx
    obtain ⟨r, d⟩ := rd
    cases horc : oracle idx with
    | true =>
      rw [insertLoop_cons_fault horc] at hx
      rcases ih _ _ _ _ _ hx with h | ⟨rd', hrd', id, hmk⟩
      · exact Or.inl h
      · exact Or.inr ⟨rd', List.mem_cons_of_mem _ hrd', id, hmk⟩
    | false =>
      cases hmk : mkStoredRow m nId r d with
      | none =>
        rw [insertLoop_cons_bad horc hmk] at hx
        rcases ih _ _ _ _ _ hx with h | ⟨rd', hrd', id, hmk'⟩
        · exact Or.inl h
        · exact Or.inr ⟨rd', List.mem_cons_of_mem _ hrd', id, hmk'⟩
      | some sr =>
        rw [insertLoop_cons_ok horc hmk] at hx
        rcases ih _ _ _ _ _ hx with h | ⟨rd', hrd', id, hmk'⟩
        · rcases mem_insert h with h' | h'
          · exact Or.inl h'
          · exact Or.inr ⟨(r, d), List.mem_cons_self _ _, nId, h' ▸ hmk⟩
        · exact Or.inr ⟨rd', List.mem_cons_of_mem _ hrd', id, hmk'⟩

theorem insertLoop_covers {m : String} (rows : List (Row × ℕ)) :
    ∀ (idx nId c : ℕ) (st : Store) (r : Row) (d : ℕ),
      (r, d) ∈ rows → rowOk r = true →
      rowKeyIn (insertLoop noFail m rows idx nId st c).2.2
        (Row.getCell r "Symbol") "DAILY" d = true := by
  induction rows with
  | nil => intro _ _ _ _ _ _ h; cases h
  | cons rd rest ih =>
    intro idx nId c st r d hmem hok
    obtain ⟨r', d'⟩ := rd
    have horc : noFail idx = false := rfl
    cases hmk : mkStoredRow m nId r' d' with
    | none =>
      rw [insertLoop_cons_bad horc hmk]
      rcases List.mem_cons.mp hmem with he | hm
      · exfalso
        have he1 : r = r' := congrArg Prod.fst he
        subst he1
        have he2 : d = d' := congrArg Prod.snd he
        subst he2
        have hs := mkStoredRow_isSome m nId r d
        rw [hmk, hok] at hs
        simp at hs
      · exact ih _ _ _ _ _ _ hm hok
    | some sr =>
      rw [insertLoop_cons_ok horc hmk]
      rcases List.mem_cons.mp hmem with he | hm
      · have he1 : r = r' := congrArg Prod.fst he
        subst he1
        have he2 : d = d' := congrArg Prod.snd he
        subst he2
        obtain ⟨_, hsym, htf, hts, _⟩ := mkStoredRow_eq_some hmk
        have hkey : rowKeyIn (insertOnConflictDoNothing st sr)
            (Row.getCell r "Symbol") "DAILY" d = true := by
          have := insert_self_key st sr
          rwa [hsym, htf, hts] at this
        exact insertLoop_mono_key _ _ _ _ _ hkey
      · exact ih _ _ _ _ _ _ hm hok

theorem insertLoop_noop {oracle : ℕ → Bool} {m : String}
    (rows : List (Row × ℕ)) :
    ∀ (idx nId c : ℕ) (st : Store),
      (∀ r d, (r, d) ∈ rows → rowOk r = true →
        rowKeyIn st (Row.getCell r "Symbol") "DAILY" d = true) →
      (insertLoop oracle m rows idx nId st c).2.2 = st := by
  induction rows with
  | nil => intro idx nId c st _; rfl
  | cons rd rest ih =>
    intro idx nId c st hcov
    obtain ⟨r, d⟩ := rd
    cases horc : oracle idx with
    | true =>
      rw [insertLoop_cons_fault horc]
      exact ih _ _ _ _ fun r' d' hm => hcov r' d' (List.mem_cons_of_mem _ hm)
    | false =>
      cases hmk : mkStoredRow m nId r d with
      | none =>
        rw [insertLoop_cons_bad horc hmk]
        exact ih _ _ _ _ fun r' d' hm => hcov r' d' (List.mem_cons_of_mem _ hm)
      | some sr =>
        rw [insertLoop_cons_ok horc hmk]
        have hok : rowOk r = true := by
          have hs := mkStoredRow_isSome m nId r d
          rw [hmk] at hs
          exact hs.symm
        have hkey := hcov r d (List.mem_cons_self _ _) hok
        obtain ⟨_, hsym, htf, hts, _⟩ := mkStoredRow_eq_some hmk
        have : insertOnConflictDoNothing st sr = st := by
          apply insert_noop
          rwa [hsym, htf, hts]
        rw [this]
        exact ih _ _ _ _ fun r' d' hm => hcov r' d' (List.mem_cons_of_mem _ hm)

theorem insertLoop_count {oracle : ℕ → Bool} {m : String}
    (rows : List (Row × ℕ)) :
    ∀ (idx nId c : ℕ) (st : Store),
      (insertLoop oracle m rows idx nId st c).1 = c + countExec oracle idx rows := by
  induction rows with
  | nil => intro idx nId c st; simp [insertLoop_nil, countExec]
  | cons rd rest ih =>
    intro idx nId c st
    obtain ⟨r, d⟩ := rd
    cases horc : oracle idx with
    | true =>
      rw [insertLoop_cons_fault horc, ih]
      simp [countExec, horc]
    | false =>
      cases hmk : mkStoredRow m nId r d with
      | none =>
        have hok : rowOk r = false := by
          have hs := mkStoredRow_isSome m nId r d
          rw [hmk] at hs
          exact hs.symm
        rw [insertLoop_cons_bad horc hmk, ih]
        simp [countExec, horc, hok]
      | some sr =>
        have hok : rowOk r = true := by
          have hs := mkStoredRow_isSome m nId r d
          rw [hmk] at hs
          exact hs.symm
        rw [insertLoop_cons_ok horc hmk, ih]
        simp [countExec, horc, hok]
        omega

/-! Lemmas about date parsing and the file pipeline -/

theorem parseDates_mem {pd : Cell → Option ℕ} (rs : List Row) :
    ∀ (l : List (Row × ℕ)), parseDates pd rs = some l →
      ∀ rd ∈ l, rd.1 ∈ rs ∧ pd (Row.getCell rd.1 "Date") = some rd.2 := by
  induction rs with
  | nil =>
    intro l h rd hrd
    simp only [parseDates, List.mapM_nil] at h
    cases h
    cases hrd
  | cons r rs' ih =>
    intro l h rd hrd
    simp only [parseDates, List.mapM_cons] at h
    cases hd : pd (Row.getCell r "Date") with
    | none => rw [hd] at h; simp at h
    | some d =>
      rw [hd] at h
      cases ht : List.mapM
          (fun r => (pd (Row.getCell r "Date")).map fun d => (r, d)) rs' with
      | none => rw [ht] at h; simp at h
      | some l' =>
        rw [ht] at h
        simp at h
        subst h
        rcases List.mem_cons.mp hrd with he | hm
        · subst he
          exact ⟨List.mem_cons_self _ _, hd⟩
        · obtain ⟨h1, h2⟩ := ih l' (by simpa [parseDates] using ht) rd hm
          exact ⟨List.mem_cons_of_mem _ h1, h2⟩

theorem survivorRows_mem {f : RawFile} {r : Row} (h : r ∈ survivorRows f) :
    survives r = true ∧ ∃ cells ∈ f.rows, r = (headerNorm f).zip cells := by
  obtain ⟨hm, hs⟩ := List.mem_filter.mp h
  obtain ⟨cells, hc, he⟩ := List.mem_map.mp hm
  exact ⟨hs, cells, hc, he.symm⟩

theorem attemptedRows_mem {pd : Cell → Option ℕ} {f : RawFile} {rd : Row × ℕ}
    (h : rd ∈ attemptedRows pd f) :
    rd.1 ∈ survivorRows f ∧ pd (Row.getCell rd.1 "Date") = some rd.2 := by
  unfold attemptedRows at h
  split at h
  · cases hp : parseDates pd (survivorRows f) with
    | none => rw [hp] at h; cases h
    | some l =>
      rw [hp] at h
      exact parseDates_mem _ _ hp rd (by simpa using h)
  · cases h

/-- When the file is not rejected outright, `process_csv_file` is exactly the
insert loop over its attempted rows. -/
theorem processCsvFile_eq_loop (pd : Cell → Option ℕ) (oracle : ℕ → Bool)
    (f : RawFile) (m : String) (nId : ℕ) (st : Store) :
    processCsvFile pd oracle false f m nId st =
      if headerOk f ∧ (parseDates pd (survivorRows f)).isSome then
        insertLoop oracle m (attemptedRows pd f) 0 nId st 0
      else (0, nId, st) := by
  unfold processCsvFile attemptedRows
  simp only [Bool.false_eq_true, if_false]
  cases hh : headerOk f with
  | false => simp [hh]
  | true =>
    cases hp : parseDates pd (survivorRows f) with
    | none => simp [hp]
    | some l => simp [hp]

/-- Provenance: every row of the output store was already stored, or is the
image under `mkStoredRow` of a surviving row of the file. -/
theorem processCsvFile_mem {pd : Cell → Option ℕ} {oracle : ℕ → Bool}
    {re : Bool} {f : RawFile} {m : String} {nId : ℕ} {st : Store}
    {x : StoredRow}
    (hx : x ∈ (processCsvFile pd oracle re f m nId st).2.2) :
    x ∈ st ∨ ∃ cells ∈ f.rows,
      survives ((headerNorm f).zip cells) = true ∧
      ∃ d id, mkStoredRow m id ((headerNorm f).zip cells) d = some x := by
  cases re with
  | true => exact Or.inl hx
  | false =>
    rw [processCsvFile_eq_loop] at hx
    split at hx
    · rcases insertLoop_mem _ _ _ _ _ _ hx with h | ⟨rd, hrd, id, hmk⟩
      · exact Or.inl h
      · obtain ⟨hsv, hdate⟩ := attemptedRows_mem hrd
        obtain ⟨hs, cells, hc, he⟩ := survivorRows_mem hsv
        refine Or.inr ⟨cells, hc, he ▸ hs, rd.2, id, he ▸ hmk⟩
    · exact Or.inl hx

/-! Which source column supplies the canonical `Close` -/

theorem getCell_zip_map {f : String → String} {tgt cc : String} :
    ∀ (h : List String) (cs : List Cell),
      (∀ x ∈ h, (f x = tgt ↔ x = cc)) →
      Row.getCell ((h.map f).zip cs) tgt = Row.getCell (h.zip cs) cc := by
  intro h
  induction h with
  | nil => intro cs _; rfl
  | cons x h' ih =>
    intro cs hiff
    cases cs with
    | nil => rfl
    | cons cell cs' =>
      simp only [List.map_cons, List.zip_cons_cons]
      by_cases hx : f x = tgt
      · have hxc : x = cc := (hiff x (List.mem_cons_self _ _)).mp hx
        rw [getCell_cons_pos hx, getCell_cons_pos hxc]
      · have hxc : ¬x = cc := fun hcc =>
          hx ((hiff x (List.mem_cons_self _ _)).mpr hcc)
        rw [getCell_cons_neg hx, getCell_cons_neg hxc]
        exact ih cs' fun y hy => hiff y (List.mem_cons_of_mem _ hy)

theorem renameA_close_iff {h : List String} (hA : "HisseKodu" ∈ h)
    (hnc : "Close" ∉ h) :
    ∀ x ∈ h, (renameFn h x = "Close" ↔
      x = (if "DuzeltilmisKapanis" ∈ h then "DuzeltilmisKapanis"
           else "KapanisFiyati")) := by
  intro x hx
  have hxc : x ≠ "Close" := fun he => hnc (he ▸ hx)
  unfold renameFn
  rw [if_pos hA]
  by_cases hd : "DuzeltilmisKapanis" ∈ h <;>
    simp only [hd, if_true, if_false] <;>
      split_ifs with h1 h2 h3 h4 h5 h6 h7 <;>
        first
          | (subst_vars; decide)
          | simp_all

theorem renameB_close_iff {h : List String} (hB : "HGDG_HS_KODU" ∈ h)
    (hnA : "HisseKodu" ∉ h) (hnc : "Close" ∉ h) :
    ∀ x ∈ h, (renameFn h x = "Close" ↔ x = "DuzeltilmisKapanis") := by
  intro x hx
  have hxc : x ≠ "Close" := fun he => hnc (he ▸ hx)
  unfold renameFn
  rw [if_neg hnA, if_pos hB]
  split_ifs with h1 h2 h3 h4 h5 h6 h7 <;>
    first
      | (subst_vars; decide)
      | simp_all

/-! Preservation of natural-key uniqueness -/

theorem insert_keyUnique {s : Store} (h : keyUnique s) (r : StoredRow) :
    keyUnique (insertOnConflictDoNothing s r) := by
  unfold insertOnConflictDoNothing
  split
  · exact h
  · next hcl =>
    have hcl' : rowKeyIn s r.Symbol r.Timeframe r.Timestamp = false := by
      simpa using hcl
    unfold keyUnique
    rw [List.pairwise_append]
    refine ⟨h, List.pairwise_singleton _ _, ?_⟩
    intro a ha b hb
    rw [List.mem_singleton] at hb
    subst hb
    intro hk
    have hkey : rowKeyIn s b.Symbol b.Timeframe b.Timestamp = true := by
      unfold rowKeyIn
      rw [List.any_eq_true]
      exact ⟨a, ha, by simp [hk.1, hk.2.1, hk.2.2]⟩
    rw [hcl'] at hkey
    exact Bool.false_ne_true hkey

theorem insertLoop_keyUnique {oracle : ℕ → Bool} {m : String}
    (rows : List (Row × ℕ)) :
    ∀ (idx nId c : ℕ) (st : Store), keyUnique st →
      keyUnique (insertLoop oracle m rows idx nId st c).2.2 := by
  induction rows with
  | nil => intro idx nId c st h; simpa [insertLoop_nil] using h
  | cons rd rest ih =>
    intro idx nId c st h
    obtain ⟨r, d⟩ := rd
    cases horc : oracle idx with
    | true => rw [insertLoop_cons_fault horc]; exact ih _ _ _ _ h
    | false =>
      cases hmk : mkStoredRow m nId r d with
      | none => rw [insertLoop_cons_bad horc hmk]; exact ih _ _ _ _ h
      | some sr =>
        rw [insertLoop_cons_ok horc hmk]
        exact ih _ _ _ _ (insert_keyUnique h sr)

theorem processCsvFile_keyUnique {pd : Cell → Option ℕ} {oracle : ℕ → Bool}
    {re : Bool} {f : RawFile} {m : String} {nId : ℕ} {st : Store}
    (h : keyUnique st) :
    keyUnique (processCsvFile pd oracle re f m nId st).2.2 := by
  cases re with
  | true => exact h
  | false =>
    rw [processCsvFile_eq_loop]
    split
    · exact insertLoop_keyUnique _ _ _ _ _ h
    · exact h

theorem runFiles_keyUnique (pd : Cell → Option ℕ) (oracle : ℕ → ℕ → Bool)
    (readErr : ℕ → Bool) (files : List (RawFile × String)) :
    ∀ (fidx nId : ℕ) (st : Store), keyUnique st →
      keyUnique (runFiles pd oracle readErr files fidx nId st).2 := by
  induction files with
  | nil => intro fidx nId st h; exact h
  | cons fm rest ih =>
    intro fidx nId st h
    obtain ⟨f, m⟩ := fm
    exact ih _ _ _ (processCsvFile_keyUnique h)

/-! Two-pass idempotence over whole file sets -/

theorem runFiles_cons (pd : Cell → Option ℕ) (oracle : ℕ → ℕ → Bool)
    (readErr : ℕ → Bool) (f : RawFile) (m : String)
    (rest : List (RawFile × String)) (fidx nId : ℕ) (st : Store) :
    runFiles pd oracle readErr ((f, m) :: rest) fidx nId st =
      runFiles pd oracle readErr rest (fidx + 1)
        (processCsvFile pd (oracle fidx) (readErr fidx) f m nId st).2.1
        (processCsvFile pd (oracle fidx) (readErr fidx) f m nId st).2.2 := rfl

theorem processCsvFile_mono_key {pd : Cell → Option ℕ} {oracle : ℕ → Bool}
    {re : Bool} {f : RawFile} {m : String} {nId : ℕ} {st : Store} {sym : Cell}
    {tf : String} {ts : ℕ} (h : rowKeyIn st sym tf ts = true) :
    rowKeyIn (processCsvFile pd oracle re f m nId st).2.2 sym tf ts = true := by
  cases re with
  | true => exact h
  | false =>
    rw [processCsvFile_eq_loop]
    split
    · exact insertLoop_mono_key _ _ _ _ _ h
    · exact h

theorem runFiles_mono_key (pd : Cell → Option ℕ) (oracle : ℕ → ℕ → Bool)
    (readErr : ℕ → Bool) (files : List (RawFile × String)) :
    ∀ (fidx nId : ℕ) (st : Store) (sym : Cell) (tf : String) (ts : ℕ),
      rowKeyIn st sym tf ts = true →
      rowKeyIn (runFiles pd oracle readErr files fidx nId st).2 sym tf ts = true := by
  induction files with
  | nil => intro _ _ _ _ _ _ h; exact h
  | cons fm rest ih =>
    intro fidx nId st sym tf ts h
    obtain ⟨f, m⟩ := fm
    rw [runFiles_cons]
    exact ih _ _ _ _ _ _ (processCsvFile_mono_key h)

/-- After a fault-free run of one file, every attempted convertible row's
natural key is present in the output store. -/
theorem processCsvFile_covers {pd : Cell → Option ℕ} {f : RawFile}
    {m : String} {nId : ℕ} {st : Store} (r : Row) (d : ℕ)
    (hm : (r, d) ∈ attemptedRows pd f) (hok : rowOk r = true) :
    rowKeyIn (processCsvFile pd noFail false f m nId st).2.2
      (Row.getCell r "Symbol") "DAILY" d = true := by
  rw [processCsvFile_eq_loop]
  split
  · exact insertLoop_covers _ _ _ _ _ _ _ hm hok
  · next hc =>
    exfalso
    apply hc
    unfold attemptedRows at hm
    split at hm
    · next hh =>
      cases hp : parseDates pd (survivorRows f) with
      | none =>
        rw [hp] at hm
        simp at hm
      | some l => exact ⟨hh, by simp [hp]⟩
    · cases hm

/-- A file each of whose attempted convertible rows already has its key in
the store changes nothing, whatever the fault oracle and read errors do. -/
theorem processCsvFile_noop {pd : Cell → Option ℕ} {oracle : ℕ → Bool}
    {re : Bool} {f : RawFile} {m : String} {nId : ℕ} {st : Store}
    (hcov : ∀ r d, (r, d) ∈ attemptedRows pd f → rowOk r = true →
      rowKeyIn st (Row.getCell r "Symbol") "DAILY" d = true) :
    (processCsvFile pd oracle re f m nId st).2.2 = st := by
  cases re with
  | true => rfl
  | false =>
    rw [processCsvFile_eq_loop]
    split
    · exact insertLoop_noop _ _ _ _ _ hcov
    · rfl

/-- After a fault-free first pass over a file set, every attempted
convertible row of every file of the set has its key in the final store. -/
theorem runFiles_covers (pd : Cell → Option ℕ)
    (files : List (RawFile × String)) :
    ∀ (fidx nId : ℕ) (st : Store) (f : RawFile) (m : String),
      (f, m) ∈ files →
      ∀ r d, (r, d) ∈ attemptedRows pd f → rowOk r = true →
      rowKeyIn (runFiles pd (fun _ _ => false) (fun _ => false) files
        fidx nId st).2 (Row.getCell r "Symbol") "DAILY" d = true := by
  induction files with
  | nil => intro _ _ _ _ _ h; cases h
  | cons fm rest ih =>
    intro fidx nId st f m hmem r d hrd hok
    obtain ⟨f', m'⟩ := fm
    rw [runFiles_cons]
    rcases List.mem_cons.mp hmem with he | hm2
    · have he1 : f = f' := congrArg Prod.fst he
      subst he1
      apply runFiles_mono_key
      exact processCsvFile_covers r d hrd hok
    · exact ih _ _ _ _ _ hm2 r d hrd hok

/-- A second pass over a file set whose attempted convertible rows are all
already keyed in the store is a no-op on the store. -/
theorem runFiles_noop {pd : Cell → Option ℕ} (oracle : ℕ → ℕ → Bool)
    (readErr : ℕ → Bool) (files : List (RawFile × String)) :
    ∀ (fidx nId : ℕ) (st : Store),
      (∀ f m, (f, m) ∈ files → ∀ r d, (r, d) ∈ attemptedRows pd f →
        rowOk r = true →
        rowKeyIn st (Row.getCell r "Symbol") "DAILY" d = true) →
      (runFiles pd oracle readErr files fidx nId st).2 = st := by
  induction files with
  | nil => intro _ _ _ _; rfl
  | cons fm rest ih =>
    intro fidx nId st hcov
    obtain ⟨f, m⟩ := fm
    rw [runFiles_cons]
    have hst : (processCsvFile pd (oracle fidx) (readErr fidx) f m nId st).2.2
        = st :=
      processCsvFile_noop (hcov f m (List.mem_cons_self _ _))
    rw [hst]
    exact ih _ _ _ fun f' m' hm => hcov f' m' (List.mem_cons_of_mem _ hm)

/-! The coordinator processes only BIST, and only its first three files -/

theorem mainRun_eq_bist (pd : Cell → Option ℕ) (oracle : ℕ → ℕ → Bool)
    (readErr : ℕ → Bool) (fs : String → Option (List RawFile)) (nId : ℕ)
    (st : Store) :
    mainRun pd oracle readErr fs nId st =
      match fs "BIST" with
      | none => (0, 0, 0, nId, st)
      | some files =>
          processMarketFiles pd oracle readErr "BIST" (files.take 3)
            0 nId st 0 0 := by
  unfold mainRun marketsList
  simp only [List.foldl_cons, List.foldl_nil]
  rcases h1 : fs "Crypto" with _ | files1 <;>
    rcases h2 : fs "NASDAQ" with _ | files2 <;>
      rcases h3 : fs "NYSE" with _ | files3 <;>
        rcases h4 : fs "BIST" with _ | files4 <;>
          simp [mainStep, h1, h2, h3, h4]

/-! The claims -/

/-- C1 (counterexample): `process_csv_file` counts a natural-key-conflict
no-op as inserted.  Importing the one-row `fileOne` into an empty store
reports 1; immediately reimporting it against the resulting store leaves the
store unchanged (the row conflicts) yet again reports 1 — not 0 as the claim
states. -/
theorem C1_counterexample :
    (processCsvFile natParse noFail false fileOne "BIST" 0 []).1 = 1 ∧
      (processCsvFile natParse noFail false fileOne "BIST"
          (processCsvFile natParse noFail false fileOne "BIST" 0 []).2.1
          (processCsvFile natParse noFail false fileOne "BIST" 0 []).2.2).2.2 =
        (processCsvFile natParse noFail false fileOne "BIST" 0 []).2.2 ∧
      ¬(processCsvFile natParse noFail false fileOne "BIST"
          (processCsvFile natParse noFail false fileOne "BIST" 0 []).2.1
          (processCsvFile natParse noFail false fileOne "BIST" 0 []).2.2).1 = 0 := by
  decide

/-- C1 (amended): the per-file count returned by `process_csv_file` counts
every attempted row whose INSERT statement executed and committed without
raising — natural-key-conflict no-ops included — rather than only rows that
committed as new; so reimporting a fully stored file reports the number of
valid rows, not 0. -/
theorem C1_inserted_count_amended (pd : Cell → Option ℕ) (oracle : ℕ → Bool)
    (f : RawFile) (m : String) (nId : ℕ) (st : Store) :
    (processCsvFile pd oracle false f m nId st).1 =
      countExec oracle 0 (attemptedRows pd f) := by
  rw [processCsvFile_eq_loop]
  split
  · rw [insertLoop_count]
    omega
  · next h =>
    unfold attemptedRows
    cases hh : headerOk f with
    | false => simp [hh, countExec]
    | true =>
      cases hp : parseDates pd (survivorRows f) with
      | none => simp [hh, hp, countExec]
      | some l => exact absurd ⟨hh, by simp [hp]⟩ h

/-- C2: set-level idempotence.  For every file set, running the whole import
a second time after a fault-free first pass leaves the store exactly as the
first pass left it (same rows, hence same final row count as running it
once) — whatever read errors or row faults the second pass suffers and
whatever its file index and fresh-id counter are; and replaying any single
file of the set after the successful run inserts zero additional rows. -/
theorem C2_idempotent_reimport (pd : Cell → Option ℕ)
    (files : List (RawFile × String)) (fidx nId : ℕ) (st : Store)
    (oracle2 : ℕ → ℕ → Bool) (readErr2 : ℕ → Bool) (fidx2 nId2 : ℕ) :
    (runFiles pd oracle2 readErr2 files fidx2 nId2
        (runFiles pd (fun _ _ => false) (fun _ => false) files
          fidx nId st).2).2 =
      (runFiles pd (fun _ _ => false) (fun _ => false) files fidx nId st).2 ∧
    ∀ (f : RawFile) (m : String), (f, m) ∈ files →
      ∀ (oracle3 : ℕ → Bool) (nId3 : ℕ),
        (processCsvFile pd oracle3 false f m nId3
            (runFiles pd (fun _ _ => false) (fun _ => false) files
              fidx nId st).2).2.2 =
          (runFiles pd (fun _ _ => false) (fun _ => false) files
            fidx nId st).2 := by
  constructor
  · apply runFiles_noop
    intro f m hm r d hrd hok
    exact runFiles_covers pd files fidx nId st f m hm r d hrd hok
  · intro f m hm oracle3 nId3
    apply processCsvFile_noop
    intro r d hrd hok
    exact runFiles_covers pd files fidx nId st f m hm r d hrd hok

/-- C2 witness: the one-file set `fileOne` imported from the empty store,
then replayed as a set and as a single file. -/
theorem C2_witness :
    (processCsvFile natParse noFail false fileOne "BIST" 9
        (runFiles natParse (fun _ _ => false) (fun _ => false)
          [(fileOne, "BIST")] 0 0 []).2).2.2 =
      (runFiles natParse (fun _ _ => false) (fun _ => false)
        [(fileOne, "BIST")] 0 0 []).2 :=
  (C2_idempotent_reimport natParse [(fileOne, "BIST")] 0 0 []
    (fun _ _ => false) (fun _ => false) 1 1).2 fileOne "BIST"
    (by decide) noFail 9

/-- C3: natural-key uniqueness is an invariant of any sequence of import
runs — if no two rows of the store share `(Symbol, Timeframe, Timestamp)`,
the same holds after running `process_csv_file` over any list of files — and
each single INSERT either leaves the store unchanged (conflict no-op) or
appends one row whose natural key was absent. -/
theorem C3_key_uniqueness (pd : Cell → Option ℕ) (oracle : ℕ → ℕ → Bool)
    (readErr : ℕ → Bool) (files : List (RawFile × String)) (fidx nId : ℕ)
    (st : Store) (h : keyUnique st) :
    keyUnique (runFiles pd oracle readErr files fidx nId st).2 ∧
      ∀ (s : Store) (r : StoredRow),
        insertOnConflictDoNothing s r = s ∨
          (rowKeyIn s r.Symbol r.Timeframe r.Timestamp = false ∧
            insertOnConflictDoNothing s r = s ++ [r]) :=
  ⟨runFiles_keyUnique _ _ _ _ _ _ _ h, insert_cases⟩

/-- C3 witness: two overlapping import runs of the same file from the empty
store keep the key-uniqueness invariant. -/
theorem C3_witness :
    keyUnique (runFiles natParse (fun _ _ => false) (fun _ => false)
      [(fileOne, "BIST"), (fileOne, "BIST")] 0 0 []).2 :=
  (C3_key_uniqueness natParse (fun _ _ => false) (fun _ => false)
    [(fileOne, "BIST"), (fileOne, "BIST")] 0 0 [] List.Pairwise.nil).1

/-- C4: every newly stored record's `Volume` obeys the overflow law — if the
raw volume value `v` satisfies `v > 99,999,999` the stored volume is
`v / 1,000,000`, otherwise it is `v` unchanged; in particular a raw volume of
500,000,000 is stored as 500 and the boundary 99,999,999 is kept exactly. -/
theorem C4_volume_overflow (pd : Cell → Option ℕ) (oracle : ℕ → Bool)
    (re : Bool) (f : RawFile) (m : String) (nId : ℕ) (st : Store)
    (x : StoredRow) (hx : x ∈ (processCsvFile pd oracle re f m nId st).2.2)
    (hnew : x ∉ st) :
    (∃ cells ∈ f.rows, ∃ v : ℚ,
        toFloat (Row.getCell ((headerNorm f).zip cells) "Volume") = some v ∧
        (99999999 < v → x.Volume = v / 1000000) ∧
        (v ≤ 99999999 → x.Volume = v)) ∧
      scaleVolume 500000000 = 500 ∧ scaleVolume 99999999 = 99999999 := by
  refine ⟨?_, by norm_num [scaleVolume], by norm_num [scaleVolume]⟩
  rcases processCsvFile_mem hx with h | ⟨cells, hc, hs, d, id, hmk⟩
  · exact absurd h hnew
  · obtain ⟨_, _, _, _, _, v, hv, hxv⟩ := mkStoredRow_eq_some hmk
    refine ⟨cells, hc, v, hv, ?_, ?_⟩
    · intro hlt
      rw [hxv]
      simp [scaleVolume, hlt]
    · intro hle
      rw [hxv]
      simp [scaleVolume, not_lt.mpr hle]

/-- C4 witness: the first stored row of `fileA` (raw volume 1000, below the
ceiling) keeps its volume unchanged. -/
theorem C4_witness :
    ∃ cells ∈ fileA.rows, ∃ v : ℚ,
      toFloat (Row.getCell ((headerNorm fileA).zip cells) "Volume") = some v ∧
      (99999999 < v → (1000 : ℚ) = v / 1000000) ∧
      (v ≤ 99999999 → (1000 : ℚ) = v) :=
  (C4_volume_overflow natParse noFail false fileA "BIST" 0 []
    { Id := 0, Symbol := Cell.str "ASELS", Timeframe := "DAILY",
      Timestamp := 20240102, Open := 10, High := 12, Low := 9, Close := 11,
      Volume := 1000, AssetClass := "BIST" } (by decide) (by decide)).1

/-- C5 (counterexample): a file whose header contains the Variant-B symbol
column `HGDG_HS_KODU` can still be matched as Variant A — the `elif` gives
`HisseKodu` priority.  `fileAB` carries both symbol columns and only the raw
close column (value 11, no `DuzeltilmisKapanis` anywhere): a record is
produced and its canonical `Close` is the raw-close column's value, which the
claim says never happens. -/
theorem C5_counterexample :
    ("HGDG_HS_KODU" ∈ stripBOM fileAB.header) ∧
      ("DuzeltilmisKapanis" ∉ stripBOM fileAB.header) ∧
      Row.getCell ((stripBOM fileAB.header).zip (fileAB.rows.getD 0 []))
        "KapanisFiyati" = Cell.num 11 ∧
      (processCsvFile natParse noFail false fileAB "BIST" 0 []).2.2.map
        (fun x => x.Close) = [11] := by
  decide

/-- C5 (amended): for every file whose header contains `HGDG_HS_KODU` and
does NOT contain the Variant-A symbol column `HisseKodu` (and no literal
`Close` column shadowing the canonical name), every produced record's `Close`
is the adjusted-close column `DuzeltilmisKapanis`'s value — never the raw
close. -/
theorem C5_variantB_close_amended (pd : Cell → Option ℕ) (oracle : ℕ → Bool)
    (re : Bool) (f : RawFile) (m : String) (nId : ℕ) (st : Store)
    (hB : "HGDG_HS_KODU" ∈ stripBOM f.header)
    (hnA : "HisseKodu" ∉ stripBOM f.header)
    (hnc : "Close" ∉ stripBOM f.header)
    (x : StoredRow) (hx : x ∈ (processCsvFile pd oracle re f m nId st).2.2)
    (hnew : x ∉ st) :
    ∃ cells ∈ f.rows,
      toFloat (Row.getCell ((stripBOM f.header).zip cells)
        "DuzeltilmisKapanis") = some x.Close := by
  rcases processCsvFile_mem hx with h | ⟨cells, hc, hs, d, id, hmk⟩
  · exact absurd h hnew
  · obtain ⟨_, _, _, _, hclose, _⟩ := mkStoredRow_eq_some hmk
    refine ⟨cells, hc, ?_⟩
    have htr := getCell_zip_map (stripBOM f.header) cells
      (renameB_close_iff hB hnA hnc)
    rw [← htr]
    exact hclose

/-- C5 witness: the Variant-B `fileB` has raw close 7 and adjusted close 8;
the produced record stores 8. -/
theorem C5_witness :
    ∃ cells ∈ fileB.rows,
      toFloat (Row.getCell ((stripBOM fileB.header).zip cells)
        "DuzeltilmisKapanis") = some (8 : ℚ) :=
  C5_variantB_close_amended natParse noFail false fileB "BIST" 0 []
    (by decide) (by decide) (by decide)
    { Id := 0, Symbol := Cell.str "XU030", Timeframe := "DAILY",
      Timestamp := 20240102, Open := 5, High := 9, Low := 4, Close := 8,
      Volume := 2000, AssetClass := "BIST" } (by decide) (by decide)

/-- C6 (counterexample): a Variant-A file can carry a literal `Close` column
and neither close-source column; the required-columns check still passes and
a record is produced whose `Close` (42) is the unrelated literal column's
value — not the raw-close column's value as the claim requires when no
adjusted close is present (neither close column exists here at all). -/
theorem C6_counterexample :
    ("HisseKodu" ∈ stripBOM fileShadow.header) ∧
      ("DuzeltilmisKapanis" ∉ stripBOM fileShadow.header) ∧
      ("KapanisFiyati" ∉ stripBOM fileShadow.header) ∧
      (processCsvFile natParse noFail false fileShadow "BIST" 0 []).2.2.map
        (fun x => x.Close) = [42] := by
  decide

/-- C6 (amended): for every file whose header contains the Variant-A symbol
column `HisseKodu` and no literal canonical `Close` column, the canonical
`Close` of every produced record equals the adjusted-close column
`DuzeltilmisKapanis`'s value when that column is present in the header, and
otherwise the raw-close column `KapanisFiyati`'s value. -/
theorem C6_variantA_close (pd : Cell → Option ℕ) (oracle : ℕ → Bool)
    (re : Bool) (f : RawFile) (m : String) (nId : ℕ) (st : Store)
    (hA : "HisseKodu" ∈ stripBOM f.header)
    (hnc : "Close" ∉ stripBOM f.header)
    (x : StoredRow) (hx : x ∈ (processCsvFile pd oracle re f m nId st).2.2)
    (hnew : x ∉ st) :
    ∃ cells ∈ f.rows,
      toFloat (Row.getCell ((stripBOM f.header).zip cells)
        (if "DuzeltilmisKapanis" ∈ stripBOM f.header then "DuzeltilmisKapanis"
         else "KapanisFiyati")) = some x.Close := by
  rcases processCsvFile_mem hx with h | ⟨cells, hc, hs, d, id, hmk⟩
  · exact absurd h hnew
  · obtain ⟨_, _, _, _, hclose, _⟩ := mkStoredRow_eq_some hmk
    refine ⟨cells, hc, ?_⟩
    have htr := getCell_zip_map (stripBOM f.header) cells
      (renameA_close_iff hA hnc)
    rw [← htr]
    exact hclose

/-- C6 witness: `fileAdj` has both close columns (raw 7, adjusted 8); the
produced record stores the adjusted 8. -/
theorem C6_witness :
    ∃ cells ∈ fileAdj.rows,
      toFloat (Row.getCell ((stripBOM fileAdj.header).zip cells)
        (if "DuzeltilmisKapanis" ∈ stripBOM fileAdj.header
         then "DuzeltilmisKapanis" else "KapanisFiyati")) = some (8 : ℚ) :=
  C6_variantA_close natParse noFail false fileAdj "BIST" 0 []
    (by decide) (by decide)
    { Id := 0, Symbol := Cell.str "THYAO", Timeframe := "DAILY",
      Timestamp := 20240102, Open := 5, High := 9, Low := 4, Close := 8,
      Volume := 2000, AssetClass := "BIST" } (by decide) (by decide)

/-- C7: a row missing a required field never reaches the insert loop (every
attempted row passes the `dropna` filter), while the remaining rows of the
same file are still processed; on the 4-row `fileA` whose third row lacks
`Close`, 3 rows are attempted, 3 inserted (failed = attempted − inserted = 0),
and the dropped third row fails the filter. -/
theorem C7_drop_law :
    (∀ (pd : Cell → Option ℕ) (f : RawFile) (r : Row) (d : ℕ),
        (r, d) ∈ attemptedRows pd f → survives r = true) ∧
      (attemptedRows natParse fileA).length = 3 ∧
      (processCsvFile natParse noFail false fileA "BIST" 0 []).1 = 3 ∧
      (processCsvFile natParse noFail false fileA "BIST" 0 []).2.2.length = 3 ∧
      survives ((headerNorm fileA).zip (fileA.rows.getD 2 [])) = false := by
  refine ⟨?_, by decide, by decide, by decide, by decide⟩
  intro pd f r d h
  exact (survivorRows_mem (attemptedRows_mem h).1).1

/-- C7 witness: the first row of `fileA` is attempted and passes the filter. -/
theorem C7_witness :
    survives ((headerNorm fileA).zip (fileA.rows.getD 0 [])) = true :=
  C7_drop_law.1 natParse fileA _ 20240102 (by decide)

/-- C8: a file whose (renamed) header does not offer all required canonical
columns is skipped outright — `process_csv_file` returns 0, the store and
id counter are untouched, and no record is attempted. -/
theorem C8_unrecognized_schema (pd : Cell → Option ℕ) (oracle : ℕ → Bool)
    (f : RawFile) (m : String) (nId : ℕ) (st : Store)
    (h : headerOk f = false) :
    processCsvFile pd oracle false f m nId st = (0, nId, st) ∧
      attemptedRows pd f = [] := by
  constructor
  · unfold processCsvFile
    simp [h]
  · unfold attemptedRows
    simp [h]

/-- C8 witness: the unknown-header `fileUnknown` is skipped. -/
theorem C8_witness :
    processCsvFile natParse noFail false fileUnknown "NASDAQ" 5 [] = (0, 5, []) ∧
      attemptedRows natParse fileUnknown = [] :=
  C8_unrecognized_schema natParse noFail fileUnknown "NASDAQ" 5 [] (by decide)

/-- C9: nothing is fatal.  (1) Any error at/before reading the CSV makes
`process_csv_file` return 0 with the store untouched; (2) a date-column parse
failure does the same; (3) a per-row persistence fault rolls back only that
row (store and count unchanged at that step) and the loop continues with the
next row; (4) `main`'s outcome depends only on the `BIST` directory — a
missing (or present) directory of any other market never stops the run.  The
embedding of `process_csv_file` is moreover a total function: no input makes
it propagate an exception. -/
theorem C9_nothing_fatal :
    (∀ (pd : Cell → Option ℕ) (oracle : ℕ → Bool) (f : RawFile) (m : String)
        (nId : ℕ) (st : Store),
        processCsvFile pd oracle true f m nId st = (0, nId, st)) ∧
      (∀ (pd : Cell → Option ℕ) (oracle : ℕ → Bool) (f : RawFile) (m : String)
        (nId : ℕ) (st : Store),
        parseDates pd (survivorRows f) = none →
        processCsvFile pd oracle false f m nId st = (0, nId, st)) ∧
      (∀ (oracle : ℕ → Bool) (m : String) (r : Row) (d : ℕ)
        (rest : List (Row × ℕ)) (idx nId c : ℕ) (st : Store),
        oracle idx = true →
        insertLoop oracle m ((r, d) :: rest) idx nId st c =
          insertLoop oracle m rest (idx + 1) (nId + 1) st c) ∧
      (∀ (pd : Cell → Option ℕ) (oracle : ℕ → ℕ → Bool) (readErr : ℕ → Bool)
        (fs fs' : String → Option (List RawFile)) (nId : ℕ) (st : Store),
        fs "BIST" = fs' "BIST" →
        mainRun pd oracle readErr fs nId st =
          mainRun pd oracle readErr fs' nId st) := by
  refine ⟨fun pd oracle f m nId st => rfl, ?_, ?_, ?_⟩
  · intro pd oracle f m nId st h
    unfold processCsvFile
    cases hh : headerOk f with
    | false => simp [hh]
    | true => simp [hh, h]
  · intro oracle m r d rest idx nId c st h
    exact insertLoop_cons_fault h m r d rest nId c st
  · intro pd oracle readErr fs fs' nId st h
    rw [mainRun_eq_bist, mainRun_eq_bist, h]

/-- C9 witness: concrete instances of all four non-fatal behaviours. -/
theorem C9_witness :
    processCsvFile natParse noFail true fileOne "BIST" 0 [] = (0, 0, []) ∧
      processCsvFile natParse noFail false fileBadDate "BIST" 0 [] = (0, 0, []) ∧
      insertLoop (fun _ => true) "BIST" [([("Symbol", Cell.str "X")], 5)] 0 7 [] 2 =
        insertLoop (fun _ => true) "BIST" [] 1 8 [] 2 ∧
      mainRun natParse (fun _ _ => false) (fun _ => false)
          (fun m => if m = "BIST" then some [fileOne] else none) 0 [] =
        mainRun natParse (fun _ _ => false) (fun _ => false)
          (fun m => if m = "BIST" then some [fileOne] else some [fileUnknown])
          0 [] :=
  ⟨C9_nothing_fatal.1 natParse noFail fileOne "BIST" 0 [],
    C9_nothing_fatal.2.1 natParse noFail fileBadDate "BIST" 0 [] (by decide),
    C9_nothing_fatal.2.2.1 (fun _ => true) "BIST" [("Symbol", Cell.str "X")] 5
      [] 0 7 2 [] rfl,
    C9_nothing_fatal.2.2.2 natParse (fun _ _ => false) (fun _ => false)
      (fun m => if m = "BIST" then some [fileOne] else none)
      (fun m => if m = "BIST" then some [fileOne] else some [fileUnknown])
      0 [] (by decide)⟩

/-- C10: in every run of `main`, the whole outcome is determined by the BIST
directory alone: only the `BIST` market is processed and at most its first
three CSV files are handled, while the Crypto, NASDAQ and NYSE markets are
unconditionally skipped (contributing zero files and zero records) even when
their directories exist and contain CSV files. -/
theorem C10_only_bist_first3 (pd : Cell → Option ℕ) (oracle : ℕ → ℕ → Bool)
    (readErr : ℕ → Bool) (fs : String → Option (List RawFile)) (nId : ℕ)
    (st : Store) :
    mainRun pd oracle readErr fs nId st =
      match fs "BIST" with
      | none => (0, 0, 0, nId, st)
      | some files =>
          processMarketFiles pd oracle readErr "BIST" (files.take 3)
            0 nId st 0 0 :=
  mainRun_eq_bist pd oracle readErr fs nId st

end MyTrader
